import Mathlib

/-!
Verification of the catalogued-query execution model of `streamlit_app.py`.

The program loads two CSV files (`policies`, `fees`) into an in-memory
SQLite database via a memoized initializer (`get_connection`) and runs a
fixed catalogue of read-only SQL queries (`query1`, `query2`, `query3`)
against it; a pandas post-processing step (`top_brand`) ranks brands.

We embed the rows as Lean structures, the SQL semantics as pure list
functions, and the memoized initializer as explicit state passing.
SQLite REAL values are modelled as `Rat`, dates as `Int` (days since an
epoch), NULLable columns as `Option`.
-/

/-- One row of the `policies` table.  The `vehicle` JSON column is
represented by its three extracted fields (`json_extract` returns NULL —
`none` — when the field or the payload is absent); the `coverages` JSON
column by the list of the `premium` fields of its coverage objects
(`none` models a SQL NULL payload). -/
structure PolicyRow where
  policy_id : Nat
  status : String
  brand : Option String
  model : Option String
  year : Option Int
  coverages : Option (List Rat)
deriving DecidableEq, Repr

/-- One row of the `fees` table.  `due_date` is a date as days since an
epoch. -/
structure FeeRow where
  policy_id : Nat
  fee_id : Nat
  status : String
  due_date : Int
  amount : Rat
deriving DecidableEq, Repr

/-- The in-memory engine after loading: one relation per CSV file. -/
structure Engine where
  policies : List PolicyRow
  fees : List FeeRow
deriving DecidableEq, Repr

/-- The raw source data (the parsed CSV files handed over by
`load_data`). -/
structure SourceData where
  policiesCsv : List PolicyRow
  feesCsv : List FeeRow
deriving DecidableEq, Repr

/-- Loading the CSVs into the engine (`to_sql` with `if_exists` set to
replace): each file becomes one relation. -/
def loadEngine (src : SourceData) : Engine :=
  { policies := src.policiesCsv, fees := src.feesCsv }

/-- The process-wide memoization cell behind the cache decorator on
`get_connection`: `none` before the first call, `some e` afterwards. -/
structure CacheState where
  cached : Option Engine
deriving DecidableEq, Repr

/-- Modelled after `get_connection` under its cache decorator: on a cache
miss the CSVs are loaded into a fresh in-memory engine which is stored in
the cache; on a hit the stored engine is returned and nothing is
re-loaded. -/
def get_connection (src : SourceData) (st : CacheState) : Engine × CacheState :=
  match st.cached with
  | some e => (e, st)
  | none =>
      let e := loadEngine src
      (e, { cached := some e })

/-- The WHERE clause of `query1`: `status = 'active'` and the three
extracted vehicle fields are not NULL. -/
def query1Where (p : PolicyRow) : Bool :=
  p.status = "active" && p.brand.isSome && p.model.isSome && p.year.isSome

/-- The GROUP BY key of `query1` for a row that passes its WHERE clause
(brand, model, year), `none` for a filtered-out row. -/
def query1Key (p : PolicyRow) : Option (String × String × Int) :=
  if p.status = "active" then
    match p.brand, p.model, p.year with
    | some b, some m, some y => some (b, m, y)
    | _, _, _ => none
  else none

/-- Embedding of `query1` (count of active vehicles): keep rows passing
the WHERE clause, group by (marca, modelo, año), count each group, order
by count descending. -/
def query1 (policies : List PolicyRow) : List ((String × String × Int) × Nat) :=
  let keyed := policies.filterMap query1Key
  let groups := keyed.dedup.map fun k => (k, keyed.countP fun x => decide (x = k))
  List.insertionSort (fun a b => b.2 ≤ a.2) groups

/-- Generic top-N ranking step: sort descending by the aggregate (stable
sort, ties kept in natural order) and truncate to `n`. -/
def topN (n : Nat) (rows : List (String × Nat)) : List (String × Nat) :=
  (List.insertionSort (fun a b => b.2 ≤ a.2) rows).take n

/-- Embedding of the `top_brand` post-processing of `query1`: group the
result by brand, sum the counts, and keep the 10 largest. -/
def top_brand (df1 : List ((String × String × Int) × Nat)) : List (String × Nat) :=
  let brands := (df1.map fun r => r.1.1).dedup
  topN 10 (brands.map fun b => (b, ((df1.filter fun r => decide (r.1.1 = b)).map Prod.snd).sum))

/-- The list of rows `json_each` produces from a `coverages` payload:
one row per list element, zero rows for a NULL payload. -/
def covRows (c : Option (List Rat)) : List Rat :=
  match c with
  | none => []
  | some l => l

/-- The CROSS JOIN of `policies` with `json_each(policies.coverages)` in
`query2`: one (policy_id, premium) pair per coverage element. -/
def unnestCoverages (policies : List PolicyRow) : List (Nat × Rat) :=
  policies.flatMap fun p => (covRows p.coverages).map fun prem => (p.policy_id, prem)

/-- Embedding of `query2` (prima total por póliza): unnest the coverages,
group by policy_id, sum the premiums, order by the sum descending. -/
def query2 (policies : List PolicyRow) : List (Nat × Rat) :=
  let rows := unnestCoverages policies
  let keys := (rows.map Prod.fst).dedup
  let groups := keys.map fun pid => (pid, ((rows.filter fun r => decide (r.1 = pid)).map Prod.snd).sum)
  List.insertionSort (fun a b => b.2 ≤ a.2) groups

/-- The truncated view of `query2` shown by the app (the head of 15 rows
of the result dataframe). -/
def query2Display (policies : List PolicyRow) : List (Nat × Rat) :=
  (query2 policies).take 15

/-- The qualifying statuses of `query3`: `status IN ('pending','overdue')`. -/
def qualifyingStatus (s : String) : Bool :=
  s = "pending" || s = "overdue"

/-- The fees of a policy that the `query3` subquery ranges over:
qualifying status and `due_date >= date('now')`. -/
def eligibleFees (fees : List FeeRow) (pid : Nat) (now : Int) : List FeeRow :=
  fees.filter fun g => decide (g.policy_id = pid) && qualifyingStatus g.status && decide (now ≤ g.due_date)

/-- Embedding of `query3` (próxima cuota pendiente): keep the fees with
qualifying status, not yet due, whose due date equals the minimum due
date among the eligible fees of the same policy; order by policy_id. -/
def query3 (fees : List FeeRow) (now : Int) : List FeeRow :=
  let sel := fees.filter fun f =>
    qualifyingStatus f.status && decide (now ≤ f.due_date) &&
      decide (((eligibleFees fees f.policy_id now).map (·.due_date)).min? = some f.due_date)
  List.insertionSort (fun a b => a.policy_id ≤ b.policy_id) sel

/-- Identifier of a catalogue query of the app. -/
inductive QueryId
  | q1
  | q2
  | q3
deriving DecidableEq, Repr

/-- A query result, tagged by the shape of its rows. -/
inductive QueryResult
  | r1 : List ((String × String × Int) × Nat) → QueryResult
  | r2 : List (Nat × Rat) → QueryResult
  | r3 : List FeeRow → QueryResult
deriving DecidableEq, Repr

/-- Executing one catalogue query against the engine at wall-clock date
`now` (only `query3` reads `date('now')`). -/
def runQueryId (q : QueryId) (e : Engine) (now : Int) : QueryResult :=
  match q with
  | .q1 => .r1 (query1 e.policies)
  | .q2 => .r2 (query2 e.policies)
  | .q3 => .r3 (query3 e.fees now)

/-! ### Helper lemmas -/

/-- The extraction key of `query1` exists exactly when the WHERE clause
holds. -/
theorem query1Key_isSome (p : PolicyRow) : (query1Key p).isSome = query1Where p := by
  rcases p with ⟨pid, s, b, m, y, c⟩
  unfold query1Key query1Where
  by_cases hs : s = "active" <;>
    cases b <;> cases m <;> cases y <;> simp [hs]

/-- Summing, over the distinct elements of a list, the number of their
occurrences gives the length of the list. -/
theorem sum_countP_dedup {α : Type} [DecidableEq α] (l : List α) :
    (l.dedup.map fun k => l.countP fun x => decide (x = k)).sum = l.length :=
  List.sum_map_count_dedup_eq_length l

/-- C1 (amended): the per-category counts of `query1` summed over all
result rows equal the number of `policies` rows satisfying the query's
WHERE clause (status active and non-NULL brand, model and year), not the
total row count of the table. -/
theorem c1_sum_counts_eq_filtered (policies : List PolicyRow) :
    ((query1 policies).map Prod.snd).sum = policies.countP query1Where := by
  unfold query1
  set keyed := policies.filterMap query1Key with hkeyed
  have hperm :
      List.Perm
        (List.insertionSort (fun a b => b.2 ≤ a.2)
          (keyed.dedup.map fun k => (k, keyed.countP fun x => decide (x = k))))
        (keyed.dedup.map fun k => (k, keyed.countP fun x => decide (x = k))) :=
    List.perm_insertionSort _ _
  rw [(hperm.map Prod.snd).sum_eq, List.map_map]
  have hcomp : (Prod.snd ∘ fun k => (k, keyed.countP fun x => decide (x = k))) =
      fun k => keyed.countP fun x => decide (x = k) := rfl
  rw [hcomp, sum_countP_dedup, hkeyed, List.length_filterMap_eq_countP]
  exact List.countP_congr fun p _ => by rw [query1Key_isSome]

/-- A one-row policies table whose single row is not active. -/
def c1Policies : List PolicyRow :=
  [{ policy_id := 0, status := "cancelled", brand := some "Toyota",
     model := some "Yaris", year := some 2020, coverages := none }]

/-- C1-counterexample: on a table with one non-active policy the
per-category counts of `query1` sum to 0 while the table has 1 row, so
the counts do not sum to the total row count of `policies`. -/
theorem c1_sum_ne_total :
    ¬ ((query1 c1Policies).map Prod.snd).sum = c1Policies.length := by
  decide

/-- Sorting descending by a value function yields a list sorted
descending by that value. -/
theorem sorted_insertionSort_desc {α β : Type} [LinearOrder β] (v : α → β) (l : List α) :
    (List.insertionSort (fun a b => v b ≤ v a) l).Sorted fun a b => v b ≤ v a :=
  have : IsTotal α fun a b => v b ≤ v a := ⟨fun a b => le_total (v b) (v a)⟩
  have : IsTrans α fun a b => v b ≤ v a := ⟨fun _ _ _ hab hbc => le_trans hbc hab⟩
  List.sorted_insertionSort _ l

/-- The fact table of the spec's ranking example: entity A with
aggregate 100, B and C tied at 80, D at 5. -/
def rankExample : List (String × Nat) :=
  [("A", 100), ("B", 80), ("C", 80), ("D", 5)]

/-- C5: the top-N ranking step sorts descending by the aggregate and
truncates to N; on the spec's example the top 3 are A then B then C (the
tie between B and C kept in natural order) and D is excluded; in general
the result has at most N rows, all drawn from the grouped rows, sorted
descending; `top_brand` instantiates it with N = 10 and the displayed
head of `query2` keeps at most 15 rows. -/
theorem c5_topN_ranking :
    topN 3 rankExample = [("A", 100), ("B", 80), ("C", 80)] ∧
    ("D", 5) ∉ topN 3 rankExample ∧
    (∀ n rows, (topN n rows).length ≤ n) ∧
    (∀ n rows x, x ∈ topN n rows → x ∈ rows) ∧
    (∀ n rows, (topN n rows).Sorted fun a b => b.2 ≤ a.2) ∧
    (∀ df1, (top_brand df1).length ≤ 10) ∧
    (∀ policies, (query2Display policies).length ≤ 15) := by
  refine ⟨by decide, by decide, ?_, ?_, ?_, ?_, ?_⟩
  · intro n rows
    simp [topN]
  · intro n rows x hx
    have hx' : x ∈ List.insertionSort (fun a b => b.2 ≤ a.2) rows :=
      (List.take_sublist _ _).mem hx
    exact (List.mem_insertionSort _).mp hx'
  · intro n rows
    exact ((sorted_insertionSort_desc Prod.snd rows).sublist (List.take_sublist _ _))
  · intro df1
    simp [top_brand, topN]
  · intro policies
    simp [query2Display]

/-- C4: invoking `get_connection` a second time after a first successful
invocation returns the very same engine (same relations, row counts and
contents) and leaves the cache state unchanged: the initializer is
memoized, not re-entrant. -/
theorem c4_get_connection_idempotent (src : SourceData) (st : CacheState) :
    get_connection src (get_connection src st).2 =
      ((get_connection src st).1, (get_connection src st).2) := by
  rcases st with ⟨_ | e⟩ <;> rfl

/-- An engine with a single pending fee due on day 0, whose `query3`
result changes when the execution date passes the due date. -/
def clockEngine : Engine :=
  { policies := [],
    fees := [{ policy_id := 1, fee_id := 1, status := "pending", due_date := 0, amount := 1 }] }

/-- C8: for a fixed engine snapshot and a fixed `now` every query result
is a function of its inputs (determinism is inherent to the embedding);
`query1` and `query2` do not depend on `now` at all, while `query3` does
on some engine (exhibited below). -/
theorem c8_determinism_and_clock :
    (∀ e n n', runQueryId .q1 e n = runQueryId .q1 e n') ∧
    (∀ e n n', runQueryId .q2 e n = runQueryId .q2 e n') ∧
    (∃ e n n', runQueryId .q3 e n ≠ runQueryId .q3 e n') := by
  refine ⟨fun _ _ _ => rfl, fun _ _ _ => rfl, ?_⟩
  exact ⟨clockEngine, 0, 1, by decide⟩

/-- Membership in the subquery scope of `query3`, unfolded. -/
theorem mem_eligibleFees (fees : List FeeRow) (pid : Nat) (now : Int) (g : FeeRow) :
    g ∈ eligibleFees fees pid now ↔
      g ∈ fees ∧ g.policy_id = pid ∧ qualifyingStatus g.status = true ∧ now ≤ g.due_date := by
  unfold eligibleFees
  rw [List.mem_filter]
  simp [and_assoc]

/-- Minimum of a list of integers, characterised. -/
theorem int_min?_eq_some_iff {l : List Int} {a : Int} :
    l.min? = some a ↔ a ∈ l ∧ ∀ b ∈ l, a ≤ b := by
  haveI : Std.Antisymm ((· : Int) ≤ ·) := ⟨fun h h' => Int.le_antisymm h h'⟩
  exact List.min?_eq_some_iff (fun _ => le_refl _) (fun a b => min_choice a b)
    (fun _ _ _ => le_min_iff)

/-- Membership in the result of `query3`, unfolded: the fee is in the
table, has a qualifying status, is not yet due, and realises the
minimum due date among the eligible fees of its policy. -/
theorem mem_query3_iff (fees : List FeeRow) (now : Int) (f : FeeRow) :
    f ∈ query3 fees now ↔
      f ∈ fees ∧ qualifyingStatus f.status = true ∧ now ≤ f.due_date ∧
        ((eligibleFees fees f.policy_id now).map (·.due_date)).min? = some f.due_date := by
  unfold query3
  rw [List.mem_insertionSort, List.mem_filter]
  simp [and_assoc]

/-- C9: a fee whose due date is strictly before the execution date is
never returned by `query3`, whatever its status; a fee of qualifying
status due exactly on the execution date is always returned. -/
theorem c9_past_due_invisible (fees : List FeeRow) (now : Int) (f : FeeRow) :
    (f.due_date < now → f ∉ query3 fees now) ∧
    (f ∈ fees → qualifyingStatus f.status = true → f.due_date = now →
      f ∈ query3 fees now) := by
  constructor
  · intro hlt hmem
    have h := (mem_query3_iff fees now f).mp hmem
    omega
  · intro hmem hq hdue
    refine (mem_query3_iff fees now f).mpr ⟨hmem, hq, le_of_eq hdue.symm, ?_⟩
    rw [int_min?_eq_some_iff]
    constructor
    · exact List.mem_map.mpr
        ⟨f, (mem_eligibleFees fees f.policy_id now f).mpr
          ⟨hmem, rfl, hq, le_of_eq hdue.symm⟩, rfl⟩
    · intro b hb
      obtain ⟨g, hg, rfl⟩ := List.mem_map.mp hb
      have hge := ((mem_eligibleFees fees f.policy_id now g).mp hg).2.2.2
      omega

/-- A fee of policy 1 with a qualifying status due on day 0. -/
def onTimeFee : FeeRow :=
  { policy_id := 1, fee_id := 1, status := "pending", due_date := 0, amount := 1 }

/-- C9-witness: at execution date 1 the day-0 pending fee is past due and
absent from `query3`; at execution date 0 it is due exactly today and
returned. -/
theorem c9_past_due_invisible_witness :
    (onTimeFee.due_date < 1 ∧ onTimeFee ∉ query3 [onTimeFee] 1) ∧
    (onTimeFee ∈ [onTimeFee] ∧ qualifyingStatus onTimeFee.status = true ∧
      onTimeFee.due_date = 0 ∧ onTimeFee ∈ query3 [onTimeFee] 0) :=
  ⟨⟨by decide, (c9_past_due_invisible [onTimeFee] 1 onTimeFee).1 (by decide)⟩,
   ⟨by decide, by decide, by decide,
    (c9_past_due_invisible [onTimeFee] 0 onTimeFee).2 (by decide) (by decide) (by decide)⟩⟩

/-- The subquery scope of `query3` distributes over appended fee tables. -/
theorem eligibleFees_append (xs ys : List FeeRow) (pid : Nat) (now : Int) :
    eligibleFees (xs ++ ys) pid now = eligibleFees xs pid now ++ eligibleFees ys pid now := by
  simp [eligibleFees]

/-- Fees of other policies never enter the subquery scope of `query3`. -/
theorem eligibleFees_nil_of_ne (fees : List FeeRow) (pid : Nat) (now : Int)
    (h : ∀ g ∈ fees, g.policy_id ≠ pid) : eligibleFees fees pid now = [] := by
  unfold eligibleFees
  exact List.filter_eq_nil_iff.mpr fun g hg => by simp [h g hg]

/-- Filtering the result of `query3` commutes (up to permutation) with
filtering its pre-sort selection. -/
theorem query3_filter_perm (fees : List FeeRow) (now : Int) (p : FeeRow → Bool) :
    List.Perm ((query3 fees now).filter p)
      ((fees.filter fun f =>
        qualifyingStatus f.status && decide (now ≤ f.due_date) &&
          decide (((eligibleFees fees f.policy_id now).map (·.due_date)).min? =
            some f.due_date)).filter p) := by
  unfold query3
  exact (List.perm_insertionSort _ _).filter p

/-- Rows of other policies never survive a policy-id filter. -/
theorem filter_other_policy_nil (p0 : Nat) (xs : List FeeRow) (q : FeeRow → Bool)
    (h : ∀ g ∈ xs, g.policy_id ≠ p0) :
    xs.filter (fun g => decide (g.policy_id = p0) && q g) = [] :=
  List.filter_eq_nil_iff.mpr fun g hg => by simp [h g hg]

/-- C2: for a policy whose fees fall due yesterday (settled status),
tomorrow (pending) and next week (pending) relative to the execution
date, `query3` returns exactly the tomorrow fee for that policy: the
settled past fee and the further-future pending fee are excluded. -/
theorem c2_next_due_selection (now : Int) (pid fid1 fid2 fid3 : Nat) (s1 : String)
    (a1 a2 a3 : Rat) (pre post : List FeeRow)
    (hs1 : qualifyingStatus s1 = false)
    (hpre : ∀ g ∈ pre, g.policy_id ≠ pid)
    (hpost : ∀ g ∈ post, g.policy_id ≠ pid) :
    (query3 (pre ++ [⟨pid, fid1, s1, now - 1, a1⟩, ⟨pid, fid2, "pending", now + 1, a2⟩,
        ⟨pid, fid3, "pending", now + 7, a3⟩] ++ post) now).filter
      (fun g => decide (g.policy_id = pid)) =
      [⟨pid, fid2, "pending", now + 1, a2⟩] := by
  have hpq : qualifyingStatus "pending" = true := by decide
  have h1 : now ≤ now + 1 := by omega
  have h7 : now ≤ now + 7 := by omega
  have hne : ¬ ((now : Int) + 1 = now + 7) := by omega
  have hminv : min ((now : Int) + 1) (now + 7) = now + 1 := by omega
  set F1 : FeeRow := ⟨pid, fid1, s1, now - 1, a1⟩ with hF1
  set F2 : FeeRow := ⟨pid, fid2, "pending", now + 1, a2⟩ with hF2
  set F3 : FeeRow := ⟨pid, fid3, "pending", now + 7, a3⟩ with hF3
  have helig : eligibleFees (pre ++ [F1, F2, F3] ++ post) pid now = [F2, F3] := by
    rw [eligibleFees_append, eligibleFees_append,
      eligibleFees_nil_of_ne pre pid now hpre, eligibleFees_nil_of_ne post pid now hpost]
    simp [eligibleFees, List.filter_cons, hF1, hF2, hF3, hs1, hpq, h1, h7]
  have hmin : ((eligibleFees (pre ++ F1 :: F2 :: F3 :: post) pid now).map
      (·.due_date)).min? = some (now + 1) := by
    have hsplit : pre ++ F1 :: F2 :: F3 :: post = pre ++ [F1, F2, F3] ++ post := by simp
    rw [hsplit, helig]
    simp [List.min?, hF2, hF3, hminv]
  have hperm := query3_filter_perm (pre ++ [F1, F2, F3] ++ post) now
    (fun g => decide (g.policy_id = pid))
  have hflt : ((pre ++ [F1, F2, F3] ++ post).filter fun f =>
      qualifyingStatus f.status && decide (now ≤ f.due_date) &&
        decide (((eligibleFees (pre ++ [F1, F2, F3] ++ post) f.policy_id now).map
          (·.due_date)).min? = some f.due_date)).filter
      (fun g => decide (g.policy_id = pid)) = [F2] := by
    rw [List.filter_filter]
    rw [List.filter_append, List.filter_append]
    rw [filter_other_policy_nil pid pre _ hpre, filter_other_policy_nil pid post _ hpost]
    simp only [hF1, hF2, hF3, List.cons_append, List.nil_append] at hmin ⊢
    simp [List.filter_cons, hs1, hpq, h1, h7, hmin, hne]
  rw [hflt] at hperm
  exact List.perm_singleton.mp hperm

/-- C2-witness: at execution date 10 a policy with a settled fee due on
day 9, a pending fee due on day 11 and a pending fee due on day 17 gets
exactly the day-11 fee from `query3`. -/
theorem c2_next_due_selection_witness :
    qualifyingStatus "paid" = false ∧
    (query3 [⟨1, 1, "paid", 9, 1⟩, ⟨1, 2, "pending", 11, 1⟩, ⟨1, 3, "pending", 17, 1⟩] 10).filter
      (fun g => decide (g.policy_id = 1)) = [⟨1, 2, "pending", 11, 1⟩] := by
  refine ⟨by decide, ?_⟩
  have h := c2_next_due_selection 10 1 1 2 3 "paid" 1 1 1 [] [] (by decide)
    (by simp) (by simp)
  simpa using h

/-- Membership in the unnest step of `query2`: each produced pair comes
from a policy row and one element of its coverages payload. -/
theorem mem_unnestCoverages (l : List PolicyRow) (x : Nat × Rat) :
    x ∈ unnestCoverages l ↔
      ∃ p ∈ l, x.1 = p.policy_id ∧ x.2 ∈ covRows p.coverages := by
  unfold unnestCoverages
  rw [List.mem_flatMap]
  constructor
  · rintro ⟨p, hp, hx⟩
    obtain ⟨prem, hprem, rfl⟩ := List.mem_map.mp hx
    exact ⟨p, hp, rfl, hprem⟩
  · rintro ⟨p, hp, h1, h2⟩
    refine ⟨p, hp, List.mem_map.mpr ⟨x.2, h2, ?_⟩⟩
    obtain ⟨x1, x2⟩ := x
    cases h1
    rfl

/-- Every policy id appearing among the unnested pairs yields one result
row of `query2` holding the sum of the premiums filtered to that id. -/
theorem query2_mem_of_key (policies : List PolicyRow) (pid : Nat)
    (h : pid ∈ (unnestCoverages policies).map Prod.fst) :
    (pid, (((unnestCoverages policies).filter fun r => decide (r.1 = pid)).map
      Prod.snd).sum) ∈ query2 policies := by
  unfold query2
  rw [List.mem_insertionSort]
  exact List.mem_map.mpr ⟨pid, List.mem_dedup.mpr h, rfl⟩

/-- C3: a policy record whose coverages payload holds exactly two
coverage entries with premiums 10.5 and 20.25, and which is the only
record of its policy id, contributes a row (policy_id, 30.75) to the
result of `query2`: the payload is expanded one row per list element
before the premiums are summed per policy. -/
theorem c3_two_coverages_sum (pid : Nat) (s : String) (b m : Option String)
    (y : Option Int) (pre post : List PolicyRow)
    (hpre : ∀ p ∈ pre, p.policy_id ≠ pid) (hpost : ∀ p ∈ post, p.policy_id ≠ pid) :
    (pid, (30.75 : Rat)) ∈
      query2 (pre ++ [⟨pid, s, b, m, y, some [10.5, 20.25]⟩] ++ post) := by
  set P : PolicyRow := ⟨pid, s, b, m, y, some [10.5, 20.25]⟩ with hP
  have hrows : unnestCoverages (pre ++ [P] ++ post) =
      unnestCoverages pre ++ [(pid, (10.5 : Rat)), (pid, (20.25 : Rat))] ++
        unnestCoverages post := by
    simp [unnestCoverages, hP, covRows]
  have hnil : ∀ other : List PolicyRow, (∀ p ∈ other, p.policy_id ≠ pid) →
      (unnestCoverages other).filter (fun r => decide (r.1 = pid)) = [] := by
    intro other hother
    refine List.filter_eq_nil_iff.mpr fun x hx => ?_
    obtain ⟨p, hp, h1, _⟩ := (mem_unnestCoverages other x).mp hx
    simp [h1, hother p hp]
  have hfil : ((unnestCoverages (pre ++ [P] ++ post)).filter
      fun r => decide (r.1 = pid)) = [(pid, (10.5 : Rat)), (pid, (20.25 : Rat))] := by
    rw [hrows, List.filter_append, List.filter_append, hnil pre hpre, hnil post hpost]
    simp
  have hmem : pid ∈ (unnestCoverages (pre ++ [P] ++ post)).map Prod.fst := by
    rw [hrows]
    simp
  have hq := query2_mem_of_key (pre ++ [P] ++ post) pid hmem
  rw [hfil] at hq
  have harith : (10.5 : Rat) + 20.25 = 30.75 := by norm_num
  simpa [harith] using hq

/-- C3-witness: a one-row policies table with coverages premiums 10.5
and 20.25 produces the result row (7, 30.75). -/
theorem c3_two_coverages_sum_witness :
    (∀ p ∈ ([] : List PolicyRow), p.policy_id ≠ 7) ∧
    (7, (30.75 : Rat)) ∈ query2 [⟨7, "active", none, none, none, some [10.5, 20.25]⟩] := by
  refine ⟨by simp, ?_⟩
  have h := c3_two_coverages_sum 7 "active" none none none [] [] (by simp) (by simp)
  simpa using h

/-- C10: a policy id all of whose records carry an empty or NULL
coverages payload is completely absent from the result of `query2`: the
unnest join produces no row for it, so no (policy_id, 0) row appears
either. -/
theorem c10_empty_coverages_absent (policies : List PolicyRow) (pid : Nat)
    (h : ∀ p ∈ policies, p.policy_id = pid → covRows p.coverages = []) :
    pid ∉ (query2 policies).map Prod.fst := by
  intro hmem
  unfold query2 at hmem
  obtain ⟨x, hx, hfst⟩ := List.mem_map.mp hmem
  rw [List.mem_insertionSort] at hx
  obtain ⟨k, hk, rfl⟩ := List.mem_map.mp hx
  obtain ⟨r, hr, hrfst⟩ := List.mem_map.mp (List.mem_dedup.mp hk)
  obtain ⟨p, hp, h1, h2⟩ := (mem_unnestCoverages policies r).mp hr
  have hpid : p.policy_id = pid := by
    simp only [← h1, hrfst]
    exact hfst
  rw [h p hp hpid] at h2
  exact (List.not_mem_nil _) h2

/-- A policy row with a NULL coverages payload. -/
def nullCovPolicy : PolicyRow :=
  { policy_id := 5, status := "active", brand := none, model := none,
    year := none, coverages := none }

/-- C10-witness: a single policy with a NULL coverages payload yields a
`query2` result without any row for its policy id. -/
theorem c10_empty_coverages_absent_witness :
    (∀ p ∈ [nullCovPolicy], p.policy_id = 5 → covRows p.coverages = []) ∧
    5 ∉ (query2 [nullCovPolicy]).map Prod.fst :=
  ⟨by decide, c10_empty_coverages_absent [nullCovPolicy] 5 (by decide)⟩

/-- Modelled from the spec: rounding to a fixed number of 2 decimal
places, used by the average-lateness query that is absent from the
repository snapshot (only the spec describes it). -/
def roundTo2 (q : Rat) : Rat :=
  (round (q * 100) : Int) / 100

/-- Modelled from the spec: the average-lateness query, absent from the
repository snapshot.  Each item is a pair of a start date and an
optional end date (days); items with an absent end date are filtered
out, the elapsed days of the rest are averaged, and the average is
rounded to 2 decimal places.  `none` when no item is settled. -/
def avgLatenessDays (items : List (Int × Option Int)) : Option Rat :=
  let lat := items.filterMap fun se => se.2.map fun (e : Int) => (e : Rat) - (se.1 : Rat)
  match lat with
  | [] => none
  | l => some (roundTo2 (l.sum / l.length))

/-- C6: on three settled items with latenesses 2, 4 and 6 days plus one
unsettled item the average is exactly 4.00; in general the unsettled
items are excluded from numerator and denominator alike, i.e. dropping
them from the input does not change the result. -/
theorem c6_avg_lateness :
    avgLatenessDays [(0, some 2), (10, some 14), (5, some 11), (3, none)] = some 4 ∧
    ∀ items, avgLatenessDays items =
      avgLatenessDays (items.filter fun se => se.2.isSome) := by
  constructor
  · norm_num [avgLatenessDays, roundTo2, round_eq, List.filterMap_cons, List.filterMap_nil,
      List.sum_cons, List.sum_nil]
  · intro items
    have hsame : ∀ l : List (Int × Option Int),
        (l.filter fun se => se.2.isSome).filterMap
            (fun se => se.2.map fun (e : Int) => (e : Rat) - (se.1 : Rat)) =
          l.filterMap fun se => se.2.map fun (e : Int) => (e : Rat) - (se.1 : Rat) := by
      intro l
      induction l with
      | nil => rfl
      | cons hd tl ih =>
          obtain ⟨s, e⟩ := hd
          cases e <;> simp [List.filter_cons, List.filterMap_cons, ih]
    unfold avgLatenessDays
    rw [hsame]

/-- Modelled from the spec: the error kinds of the query executor (the
source wires buttons directly, so the defensive lookup only exists in
the spec). -/
inductive QueryError
  | QueryNotFound
  | ExecutionError
deriving DecidableEq, Repr

/-- Modelled from the spec: a catalogue entry pairing a unique display
title with the static query text and its explanation metadata. -/
structure QueryDef where
  title : String
  queryText : String
  shortExpl : String
  longExpl : String
deriving DecidableEq, Repr

/-- Modelled from the spec: the static catalogue built at process start
from the three queries of the app, keyed by their display titles. -/
def catalogue : List QueryDef :=
  [{ title := "1. Conteo de vehículos activos",
     queryText := "SELECT marca, modelo, cantidad FROM policies GROUP BY marca, modelo",
     shortExpl := "Distribución de vehículos activos",
     longExpl := "Conteo por marca, modelo y año de las pólizas activas" },
   { title := "2. Prima total por póliza",
     queryText := "SELECT policy_id, SUM(premium) FROM policies CROSS JOIN coverages",
     shortExpl := "Prima total",
     longExpl := "Suma de primas de las coberturas de cada póliza" },
   { title := "3. Próxima cuota pendiente",
     queryText := "SELECT policy_id, fee_id, due_date, amount FROM fees",
     shortExpl := "Próxima cuota",
     longExpl := "Cuota pendiente u overdue con fecha mínima no pasada" }]

/-- Modelled from the spec: the defensive catalogue lookup of the
executor, failing with `QueryNotFound` instead of crashing when the
title is unknown. -/
def lookupQuery (title : String) : Except QueryError QueryDef :=
  match catalogue.find? fun q => decide (q.title = title) with
  | some q => Except.ok q
  | none => Except.error QueryError.QueryNotFound

/-- C7: looking up any title that no catalogue entry carries yields the
`QueryNotFound` error value (a total function, not a crash). -/
theorem c7_unknown_title_not_found (title : String)
    (h : ∀ q ∈ catalogue, q.title ≠ title) :
    lookupQuery title = Except.error QueryError.QueryNotFound := by
  unfold lookupQuery
  rw [List.find?_eq_none.mpr fun q hq => by simp [h q hq]]

/-- C7-witness: the empty title is not a catalogue title and its lookup
returns `QueryNotFound`. -/
theorem c7_unknown_title_not_found_witness :
    (∀ q ∈ catalogue, q.title ≠ "") ∧
    lookupQuery "" = Except.error QueryError.QueryNotFound :=
  ⟨by decide, c7_unknown_title_not_found "" (by decide)⟩
